import Mathlib

/-!
Verification development for the `pythonfinder` / `pew` modules of this
repository.  Python code is shallowly embedded: class-level dictionaries
become association lists (insertion-ordered, like Python dicts), fallible
code returns `Except PyErr`, and the filesystem / platform facts consulted
by the code are passed in explicitly through an `Env` record.
-/

/-- Python exceptions that the embedded code can raise. -/
inductive PyErr
  | attributeError
  | keyError
  | typeError
  | indexError
deriving DecidableEq, Repr

/-- Values stored in `PythonFinder.PYTHON_VERSIONS`: either a path string or a
Python list of raw version strings (the defaultdict's list values). -/
inductive PyV
  | str (s : String)
  | vlist (l : List String)
deriving DecidableEq, Repr

/-- Values returned by `from_version` / `from_line`: `None`, a plain string, a
Python list, or a `pathlib.Path`. -/
inductive PyRet
  | none
  | str (s : String)
  | vlist (l : List String)
  | path (s : String)
deriving DecidableEq, Repr

def okOf {α : Type} : Except PyErr α → Option α
  | .ok a => some a
  | .error _ => Option.none

def errOf {α : Type} : Except PyErr α → Option PyErr
  | .ok _ => Option.none
  | .error e => some e

def exceptIsOk {α : Type} : Except PyErr α → Bool
  | .ok _ => true
  | .error _ => false

/-! ### Association lists: the embedding of Python dicts.
`aget` is `d.get(k)`; `aset` is `d[k] = v` (replace in place, insert at the
end when absent, exactly like an insertion-ordered Python dict). -/

def aget {κ α : Type} [DecidableEq κ] : List (κ × α) → κ → Option α
  | [], _ => Option.none
  | p :: m, k => if p.1 = k then some p.2 else aget m k

def aset {κ α : Type} [DecidableEq κ] : List (κ × α) → κ → α → List (κ × α)
  | [], k, v => [(k, v)]
  | p :: m, k, v => if p.1 = k then (k, v) :: m else p :: aset m k v

theorem aget_aset_self {κ α : Type} [DecidableEq κ] (m : List (κ × α)) (k : κ) (v : α) :
    aget (aset m k v) k = some v := by
  induction m with
  | nil => simp [aget, aset]
  | cons p m ih =>
      by_cases h : p.1 = k
      · simp [aset, aget, h]
      · simp [aset, aget, h, ih]

theorem aget_aset_ne {κ α : Type} [DecidableEq κ] (m : List (κ × α)) (k k' : κ) (v : α)
    (h : k' ≠ k) : aget (aset m k v) k' = aget m k' := by
  have hk : ¬ (k = k') := fun hh => h hh.symm
  induction m with
  | nil => simp [aget, aset, hk]
  | cons p m ih =>
      by_cases hp : p.1 = k
      · simp only [aset, hp, if_pos]
        have : ¬ (k = k') := fun hh => h hh.symm
        simp [aget, this, hp]
      · simp only [aset, hp, if_neg, ite_false]
        by_cases hpk : p.1 = k'
        · simp [aget, hpk]
        · simp [aget, hpk, ih]

/-- `defaultdict` bracket access: return the stored value, or insert and
return the default. -/
def bracketDefault {κ α : Type} [DecidableEq κ] (m : List (κ × α)) (k : κ) (d : α) :
    α × List (κ × α) :=
  match aget m k with
  | some v => (v, m)
  | Option.none => (d, m ++ [(k, d)])

theorem aget_append {κ α : Type} [DecidableEq κ] (m m' : List (κ × α)) (k : κ) :
    aget (m ++ m') k = ((aget m k).rec (aget m' k) (fun v => some v) : Option α) := by
  induction m with
  | nil => simp [aget]
  | cons p m ih =>
      by_cases h : p.1 = k
      · simp [aget, h]
      · simp [aget, h, ih]

/-! ### String helpers built on `List Char`, so that everything reduces in the
kernel.  These embed the Python `str` operations the source uses. -/

/-- Split a character list on a separator predicate, keeping empty fields:
embeds `s.split(sep)` for a one-character separator. -/
def splitOnPred (p : Char → Bool) : List Char → List (List Char)
  | [] => [[]]
  | c :: cs =>
      match splitOnPred p cs with
      | [] => [[]]
      | h :: t => if p c then [] :: h :: t else (c :: h) :: t

/-- `s.split(c)` for a one-character separator (keeps empty fields). -/
def pySplitChar (sep : Char) (s : String) : List String :=
  (splitOnPred (fun c => c = sep) s.data).map (fun cs => String.mk cs)

/-- `s.split()` — split on whitespace, dropping empty fields. -/
def pySplitWs (s : String) : List String :=
  ((splitOnPred (fun c => c = ' ' ∨ c = '\t' ∨ c = '\n' ∨ c = '\r') s.data).filter
    (fun cs => ¬ cs.isEmpty)).map (fun cs => String.mk cs)

/-- `s.startswith(t)`. -/
def pyStartsWith (s t : String) : Bool :=
  t.data.isPrefixOf s.data

/-- `s[0]` as a one-character string (callers guard non-emptiness). -/
def firstCharStr (s : String) : String :=
  String.mk (s.data.take 1)

def dropLeading (c : Char) : List Char → List Char
  | [] => []
  | x :: xs => if x = c then dropLeading c xs else x :: xs

/-- `s.strip(c)` for a one-character strip set. -/
def pyStrip (c : Char) (s : String) : String :=
  String.mk ((dropLeading c ((dropLeading c s.data).reverse)).reverse)

/-- decimal digit character. -/
def digitChar : Nat → Char
  | 0 => '0' | 1 => '1' | 2 => '2' | 3 => '3' | 4 => '4'
  | 5 => '5' | 6 => '6' | 7 => '7' | 8 => '8' | _ => '9'

def natDigits : Nat → Nat → List Char
  | 0, _ => []
  | fuel + 1, n => if n < 10 then [digitChar n] else natDigits fuel (n / 10) ++ [digitChar (n % 10)]

/-- `'{0}'.format(n)` for a natural number. -/
def pyStrNat (n : Nat) : String :=
  String.mk (natDigits (n + 1) n)

/-- `'.'.join(xs)`. -/
def joinDots : List String → String
  | [] => ""
  | [s] => s
  | s :: rest => s ++ "." ++ joinDots rest

/-- `sep.join(xs)` for a one-character separator. -/
def joinWithChar (c : Char) : List String → String
  | [] => ""
  | [s] => s
  | s :: rest => s ++ String.mk [c] ++ joinWithChar c rest

/-- `sep.join(parts)` where a `None` element raises `TypeError`, as in Python. -/
def pyJoin (c : Char) (parts : List (Option String)) : Except PyErr String :=
  if parts.all Option.isSome then
    .ok (joinWithChar c (parts.map (fun o => o.getD "")))
  else .error .typeError

/-- `os.path.splitext(fn)[0]` for a bare file name (no separator inside):
split at the last dot, unless every character before it is a dot. -/
def splitextBase (fn : String) : String :=
  let cs := fn.data
  match cs.reverse.findIdx? (fun c => c = '.') with
  | Option.none => fn
  | some r =>
      let i := cs.length - 1 - r
      if (cs.take i).all (fun c => c = '.') then fn else String.mk (cs.take i)

/-- `s.lower()`. -/
def pyLower (s : String) : String :=
  String.mk (s.data.map Char.toLower)

/-- `s.rsplit(c, 1)[0]`: everything before the last occurrence of `c`, or the
whole string when `c` is absent. -/
def pyRsplitFirst (c : Char) (s : String) : String :=
  match s.data.reverse.findIdx? (fun x => x = c) with
  | Option.none => s
  | some i => String.mk ((s.data.reverse.drop (i + 1)).reverse)

/-- A fold-invariant helper used for the executable-index proofs. -/
theorem foldl_inv {α β : Type} (P : β → Prop) (f : β → α → β)
    (h : ∀ b a, P b → P (f b a)) : ∀ (l : List α) (b : β), P b → P (l.foldl f b) := by
  intro l
  induction l with
  | nil => intro b hb; simpa using hb
  | cons a l ih => intro b hb; simpa using ih (f b a) (h b a hb)

/-! ### The environment: filesystem and platform facts consulted by the code. -/

/-- Filesystem / OS facts the finder consults (`os.path.isabs`, `os.access`,
`os.path.isdir`, `os.listdir`, `os.path.expandvars`, `os.pathsep`, `os.sep`). -/
structure Env where
  pathsep : Char
  sep : String
  isabs : String → Bool
  accessX : String → Bool
  accessR : String → Bool
  isdir : String → Bool
  listdir : String → Option (List String)
  expandvars : String → String

/-- The class-level mutable state of `PathFinder` / `PythonFinder`. -/
structure FinderState where
  PATH : Option String
  WHICH : List (String × String)
  WHICH_PYTHON : List (String × String)
  PYENV_VERSIONS : List (String × List String)
  PYTHON_VERSIONS : List (String × PyV)
  PYTHON_PATHS : List (String × String)
  MAX_PYTHON : List (String × String)
  PYTHON_ARCHS : List (String × List (String × String))
deriving DecidableEq

/-- An empty `FinderState` with a given `PATH`. -/
def emptyState (PATH : Option String) : FinderState :=
  { PATH := PATH, WHICH := [], WHICH_PYTHON := [], PYENV_VERSIONS := [],
    PYTHON_VERSIONS := [], PYTHON_PATHS := [], MAX_PYTHON := [], PYTHON_ARCHS := [] }

/-! ### `PathFinder._populate_which_dict` and `which`. -/

/-- Truthiness of `cls.WHICH.get(fn)`: absent or empty string is falsy. -/
def whichTruthy : Option String → Bool
  | Option.none => false
  | some s => s ≠ ""

/-- The executable-or-readable, non-directory check on a full path
(`(os.access(p, X_OK) or os.access(p, R_OK)) and not os.path.isdir(p)`). -/
def execOk (env : Env) (p : String) : Bool :=
  (env.accessX p || env.accessR p) && !env.isdir p

/-- One file `fn` of directory `dir` in `_populate_which_dict`'s inner loop. -/
def scanFile (env : Env) (dir : String) (W : List (String × String)) (fn : String) :
    List (String × String) :=
  let full := dir ++ env.sep ++ fn
  if execOk env full then
    let W := if whichTruthy (aget W fn) then W else aset W fn full
    let base := splitextBase fn
    if whichTruthy (aget W base) then W else aset W base full
  else W

/-- One directory of `_populate_which_dict`'s outer loop (`os.listdir` failing
with `OSError` is swallowed by `continue`). -/
def scanDir (env : Env) (W : List (String × String)) (dir : String) :
    List (String × String) :=
  let dir := env.expandvars dir
  match env.listdir dir with
  | Option.none => W
  | some files => files.foldl (scanFile env dir) W

/-- The pure core of `PathFinder._populate_which_dict` over a known `PATH`. -/
def populatePure (env : Env) (P : String) (W : List (String × String)) :
    List (String × String) :=
  (pySplitChar env.pathsep P).foldl (scanDir env) W

/-- `PathFinder._populate_which_dict`: `cls.PATH.split(os.pathsep)` raises
`AttributeError` when `cls.PATH` is `None`. -/
def populate_which_dict (env : Env) (PATH : Option String)
    (W : List (String × String)) : Except PyErr (List (String × String)) :=
  match PATH with
  | Option.none => .error .attributeError
  | some P => .ok (populatePure env P W)

/-- `PathFinder.which` (classmethod): repopulate when the index is empty, then
`cls.WHICH.get(cmd, cmd)`. -/
def which (env : Env) (st : FinderState) (cmd : String) :
    Except PyErr (String × FinderState) := do
  let st ←
    if st.WHICH.isEmpty then
      match populate_which_dict env st.PATH st.WHICH with
      | .error e => throw e
      | .ok W => pure { st with WHICH := W }
    else pure st
  pure ((aget st.WHICH cmd).getD cmd, st)

/-- `PathFinder.__init__`: assemble `PathFinder.PATH` from the `PATH`
environment variable, the optional extra path and the `system` flag, then
populate the executable index.  Returns the resulting `(PATH, WHICH)` pair. -/
def pathfinder_init (env : Env) (envPATH : Option String) (sysExecDir : String)
    (path0 : Option String) (system : Bool) (W0 : List (String × String)) :
    Except PyErr (Option String × List (String × String)) := do
  let search := envPATH
  let path ←
    match path0 with
    | some p =>
        if system then (pyJoin env.pathsep [some sysExecDir, search, some p]).map some
        else (pyJoin env.pathsep [some p, search]).map some
    | Option.none =>
        if system then (pyJoin env.pathsep [some sysExecDir, search]).map some
        else pure Option.none
  let PATH : Option String :=
    match path with
    | some pp => if pp ≠ "" then some pp else envPATH
    | Option.none => envPATH
  let W ← populate_which_dict env PATH W0
  pure (PATH, W)

/-! ### `PythonFinder`: version parsing model and precedence. -/

/-- Result of `packaging.version.parse`: a structured release
(`Version`, whose `_version` is a namedtuple with a `release` tuple and
pre-release markers) or a legacy/opaque version (`LegacyVersion`, whose
`_version` is the raw string).  The parser itself is external library code, so
theorems quantify over the parsing function. -/
inductive ParsedVersion
  | structured (release : List Nat) (isPre : Bool)
  | legacy (raw : String)
deriving DecidableEq, Repr

/-- `parsed_version.base_version`: the release tuple joined with dots for
structured versions, the raw string for legacy versions. -/
def baseVersion : ParsedVersion → String
  | .structured release _ => joinDots (release.map pyStrNat)
  | .legacy raw => raw

/-- `PythonFinder._path_index`: position of the first configured directory
that is a string-prefix of `path`; `len(paths) + 1` (or `0` under `reverse`)
when none matches.  Calling `.startswith` on a non-string raises. -/
def path_index (pathsep : Char) (PATH : String) (v : PyV) (reverse : Bool) :
    Except PyErr Nat :=
  match v with
  | .vlist _ => .error .attributeError
  | .str p =>
      let paths := pySplitChar pathsep PATH
      match paths.findIdx? (fun base => pyStartsWith p base) with
      | some i => .ok (if reverse then paths.length - i else i)
      | Option.none => .ok (if reverse then 0 else paths.length + 1)

/-- `PythonFinder._path_precedence`: note that the source computes
`ordered = sorted(...)` but never returns it, so the both-present case falls
through to an implicit `None`, and the `path1 is None` branch returns
`path1` (that is, `None`).  `cls.PATH.split` raises when `PATH` is `None`,
and `_path_index(None)` raises `AttributeError`. -/
def path_precedence_aux (pathsep : Char) (PATH : Option String)
    (path1 path2 : Option PyV) : Except PyErr (Option PyV) := do
  match PATH with
  | Option.none => throw .attributeError
  | some P =>
      match path1, path2 with
      | Option.none, some _ => pure Option.none
      | some v1, Option.none => pure (some v1)
      | Option.none, Option.none => throw .attributeError
      | some v1, some v2 => do
          let _ ← path_index pathsep P v1 false
          let _ ← path_index pathsep P v2 false
          pure Option.none

/-- `PythonFinder.path_precedence`: `if not ordered: return None`, else
`ordered[0][0]` — indexing a plain string twice yields its first character. -/
def path_precedence (pathsep : Char) (PATH : Option String)
    (path1 path2 : Option PyV) : Except PyErr (Option PyV) := do
  let ordered ← path_precedence_aux pathsep PATH path1 path2
  match ordered with
  | Option.none => pure Option.none
  | some (.str s) =>
      if s = "" then pure Option.none
      else pure (some (.str (firstCharStr s)))
  | some (.vlist l) =>
      match l with
      | [] => pure Option.none
      | s :: _ =>
          if s = "" then throw .indexError
          else pure (some (.str (firstCharStr s)))

/-- Python `==` between a `path_precedence` result and a string. -/
def pyEqStr : Option PyV → String → Bool
  | Option.none, _ => false
  | some (.str s), t => s = t
  | some (.vlist _), _ => false

/-! ### `PythonFinder.register_python`. -/

/-- The `"major.minor"` list key: `'.'.join(release[:2])`. -/
def majorMinorKey (release : List Nat) : String :=
  joinDots ((release.take 2).map pyStrNat)

/-- `cls.PYTHON_VERSIONS[k].append(v)` on the defaultdict: insert an empty
list when absent; `.append` on a stored string raises `AttributeError`. -/
def appendToKey (m : List (String × PyV)) (k v : String) :
    Except PyErr (List (String × PyV)) :=
  match aget m k with
  | Option.none => .ok (m ++ [(k, PyV.vlist [v])])
  | some (.vlist l) => .ok (aset m k (PyV.vlist (l ++ [v])))
  | some (.str _) => .error .attributeError

/-- `PythonFinder.register_python(path, full_version, pre, pyenv, arch)`.
The source branches on `isinstance(parsed_version._version, str)`: legacy
(opaque) versions take the precedence-gated exact-version/arch-map path,
structured versions are appended to the `"major.minor"` and `"major"` lists.
`if not arch: arch = platform.architecture()[0]` treats an empty string as
absent too. -/
def register_python (pathsep : Char) (SYSTEM_ARCH : String)
    (parse : String → ParsedVersion) (st : FinderState)
    (path full_version : String) (_pre _pyenv : Bool) (arch0 : Option String) :
    Except PyErr FinderState := do
  let arch := match arch0 with
    | Option.none => SYSTEM_ARCH
    | some a => if a = "" then SYSTEM_ARCH else a
  match parse full_version with
  | .legacy raw =>
      let current_max_path := aget st.MAX_PYTHON raw
      let current_full_version_path := aget st.PYTHON_VERSIONS raw
      let r1 ← path_precedence pathsep st.PATH current_full_version_path (some (.str path))
      let st ←
        if pyEqStr r1 path then do
          let st :=
            if arch = SYSTEM_ARCH || pyStartsWith SYSTEM_ARCH arch then
              { st with PYTHON_VERSIONS := aset st.PYTHON_VERSIONS raw (.str path) }
            else st
          let st := { st with PYTHON_VERSIONS := aset st.PYTHON_VERSIONS raw (.str path) }
          let st := { st with PYTHON_PATHS := aset st.PYTHON_PATHS path raw }
          let archMap := (aget st.PYTHON_ARCHS raw).getD []
          pure { st with PYTHON_ARCHS := aset st.PYTHON_ARCHS raw (aset archMap arch path) }
        else pure st
      let r2 ← path_precedence pathsep st.PATH (current_max_path.map (fun s => PyV.str s))
                (some (.str path))
      if pyEqStr r2 path then
        pure { st with MAX_PYTHON := aset st.MAX_PYTHON raw raw }
      else pure st
  | .structured release isPre =>
      let st := { st with PYTHON_PATHS := aset st.PYTHON_PATHS path full_version }
      let _pre := _pre || isPre
      let major_minor := majorMinorKey release
      let pvs ← appendToKey st.PYTHON_VERSIONS major_minor full_version
      let st := { st with PYTHON_VERSIONS := pvs }
      match release with
      | [] => throw .indexError
      | r0 :: _ =>
          let major := pyStrNat r0
          let pvs ← appendToKey st.PYTHON_VERSIONS major full_version
          pure { st with PYTHON_VERSIONS := pvs }

/-! ### `PythonFinder` resolution: `from_version`, `from_line` and helpers.
The population routines (`_populate_python_versions`,
`populate_pyenv_runtimes`, `_populate_windows_python_versions`) crawl the
filesystem and spawn subprocesses; they are passed in as state transformers. -/

/-- Truthiness of a `PYTHON_VERSIONS` lookup result. -/
def pyvTruthy : Option PyV → Bool
  | Option.none => false
  | some (.str s) => s ≠ ""
  | some (.vlist l) => !l.isEmpty

/-- Convert a registry lookup result into a Python return value. -/
def pyRetOfOpt : Option PyV → PyRet
  | Option.none => PyRet.none
  | some (.str s) => PyRet.str s
  | some (.vlist l) => PyRet.vlist l

/-- Truthiness of the value `from_version` is about to wrap. -/
def pyRetTruthy : PyRet → Bool
  | PyRet.none => false
  | PyRet.str s => s ≠ ""
  | PyRet.vlist l => !l.isEmpty
  | PyRet.path _ => true

/-- `if arch:` — an architecture argument is truthy when present and
non-empty. -/
def archTruthy : Option String → Bool
  | Option.none => false
  | some a => a ≠ ""

/-- `PythonFinder.from_windows_finder`: with a truthy `arch`,
`cls.PYTHON_ARCHS[version][arch]` raises `KeyError` when the inner dict has
no such key; otherwise `cls.PYTHON_VERSIONS[version]` (defaultdict access). -/
def from_windows_finder (populateWin : FinderState → FinderState)
    (st : FinderState) (version : String) (arch : Option String) :
    Except PyErr (PyRet × FinderState) := do
  let st := if st.PYTHON_VERSIONS.isEmpty then populateWin st else st
  if archTruthy arch then
    let (inner, archs) := bracketDefault st.PYTHON_ARCHS version []
    let st := { st with PYTHON_ARCHS := archs }
    match aget inner (arch.getD "") with
    | Option.none => throw .keyError
    | some p => pure (PyRet.str p, st)
  else
    let (v, pvs) := bracketDefault st.PYTHON_VERSIONS version (PyV.vlist [])
    pure (pyRetOfOpt (some v), { st with PYTHON_VERSIONS := pvs })

/-- `PythonFinder.from_pyenv`: defaultdict access on `PYENV_VERSIONS`. -/
def from_pyenv (populatePyenv : FinderState → FinderState)
    (st : FinderState) (version : String) : PyRet × FinderState :=
  let st := if st.PYENV_VERSIONS.isEmpty then populatePyenv st else st
  let (v, m) := bracketDefault st.PYENV_VERSIONS version []
  (PyRet.vlist v, { st with PYENV_VERSIONS := m })

/-- `PythonFinder._crawl_path_for_version`: `.get` on `PYTHON_VERSIONS`. -/
def crawl_path_for_version (populatePy : FinderState → FinderState)
    (st : FinderState) (version : String) : PyRet × FinderState :=
  let st := if st.PYTHON_VERSIONS.isEmpty then populatePy st else st
  (pyRetOfOpt (aget st.PYTHON_VERSIONS version), st)

/-- The final wrap of `from_version`:
`if path and not isinstance(path, Path): path = Path(path)`.
`Path` of a non-empty Python list raises `TypeError`. -/
def wrapAsPath : PyRet → Except PyErr PyRet
  | PyRet.str s => if s ≠ "" then .ok (PyRet.path s) else .ok (PyRet.str s)
  | PyRet.vlist l => if !l.isEmpty then .error .typeError else .ok (PyRet.vlist l)
  | PyRet.none => .ok PyRet.none
  | PyRet.path s => .ok (PyRet.path s)

/-- `PythonFinder.from_version(version, architecture)`. -/
def from_version (os_nt pyenv_installed : Bool)
    (parse : String → ParsedVersion)
    (populatePy populatePyenv populateWin : FinderState → FinderState)
    (st : FinderState) (version : String) (architecture : Option String) :
    Except PyErr (PyRet × FinderState) := do
  let guess := aget st.PYTHON_VERSIONS ((aget st.MAX_PYTHON version).getD version)
  if pyvTruthy guess then
    pure (pyRetOfOpt guess, st)
  else do
    let (path, st) ←
      if os_nt then
        from_windows_finder populateWin st version architecture
      else do
        let full := baseVersion (parse version)
        let st := if st.PYTHON_VERSIONS.isEmpty then populatePy st else st
        if pyenv_installed then
          let st := if st.PYENV_VERSIONS.isEmpty then populatePyenv st else st
          pure (from_pyenv populatePyenv st full)
        else
          pure (crawl_path_for_version populatePy st full)
    let r ← wrapAsPath path
    pure (r, st)

/-- `PythonFinder.from_line(python)`.  An absolute executable path is
returned verbatim; a `py -X` launcher line delegates to `from_version`; any
other `py*` token is looked up in `WHICH_PYTHON` and then `which`; all
remaining tokens fall off the end of the function and return `None`. -/
def from_line (env : Env) (os_nt pyenv_installed : Bool)
    (parse : String → ParsedVersion)
    (populatePy populatePyenv populateWin : FinderState → FinderState)
    (st : FinderState) (python : String) : Except PyErr (PyRet × FinderState) := do
  if env.isabs python && env.accessX python then
    pure (PyRet.str python, st)
  else if pyStartsWith python "py" then
    let wf := pySplitWs python
    match wf with
    | w0 :: w1 :: _ =>
        if w0 = "py" && pyStartsWith w1 "-" then
          let stripped := pyStrip '-' w1
          match pySplitWs stripped with
          | [] => throw .indexError
          | v :: _ =>
              from_version os_nt pyenv_installed parse populatePy populatePyenv
                populateWin st v Option.none
        else do
          match aget st.WHICH_PYTHON python with
          | some s =>
              if s ≠ "" then pure (PyRet.str s, st)
              else do
                let (r, st) ← which env st python
                pure (PyRet.str r, st)
          | Option.none => do
              let (r, st) ← which env st python
              pure (PyRet.str r, st)
    | _ => do
        match aget st.WHICH_PYTHON python with
        | some s =>
            if s ≠ "" then pure (PyRet.str s, st)
            else do
              let (r, st) ← which env st python
              pure (PyRet.str r, st)
        | Option.none => do
            let (r, st) ← which env st python
            pure (PyRet.str r, st)
  else
    pure (PyRet.none, st)

/-! ### `pew._win_utils.get_shell`: the Windows process-ancestry walk. -/

/-- One row of the process snapshot built by `get_all_processes`. -/
structure ProcEntry where
  executable : String
  parent_pid : Option Nat
deriving DecidableEq, Repr

def SHELL_NAMES : List String := ["cmd", "powershell", "pwsh"]

def EMULATOR_NAMES : List String := ["cmder"]

/-- `_get_executable_name`: lower-case the executable and drop the last
extension (`executable.lower().rsplit('.', 1)[0]`). -/
def get_executable_name (p : ProcEntry) : String :=
  pyRsplitFirst '.' (pyLower p.executable)

/-- The `for _ in range(max_depth)` loop of `get_shell`.  When the current
pid has no entry in the table the source still executes
`pid = proc.get('parent_pid')` on `proc = None`, raising `AttributeError`. -/
def get_shell_loop (processes : List (Nat × ProcEntry)) :
    Nat → Option Nat → String → String → Except PyErr (String × String)
  | 0, _, shell, emulator => .ok (shell, emulator)
  | fuel + 1, pid, shell, emulator =>
      let proc := match pid with
        | Option.none => Option.none
        | some p => aget processes p
      match proc with
      | Option.none => .error .attributeError
      | some pr =>
          let name := get_executable_name pr
          let shell := if shell = "" && SHELL_NAMES.contains name then pr.executable else shell
          let emulator :=
            if emulator = "" && EMULATOR_NAMES.contains name then pr.executable else emulator
          if shell ≠ "" && emulator ≠ "" then .ok (shell, emulator)
          else get_shell_loop processes fuel pr.parent_pid shell emulator

/-- `get_shell(pid, max_depth, shell, emulator)`: a falsy pid (missing or 0)
is replaced by the current process id. -/
def get_shell (processes : List (Nat × ProcEntry)) (pid0 : Option Nat)
    (ownPid : Nat) (max_depth : Nat) (shell emulator : String) :
    Except PyErr (String × String) :=
  let pid := match pid0 with
    | Option.none => ownPid
    | some 0 => ownPid
    | some p => p
  get_shell_loop processes max_depth (some pid) shell emulator

/-! ### Shared concrete material for evaluation theorems. -/

instance {ε α : Type} [DecidableEq ε] [DecidableEq α] : DecidableEq (Except ε α)
  | .ok x, .ok y =>
      if h : x = y then isTrue (by rw [h]) else isFalse (by intro hh; cases hh; exact h rfl)
  | .ok _, .error _ => isFalse (by intro hh; cases hh)
  | .error _, .ok _ => isFalse (by intro hh; cases hh)
  | .error e, .error f =>
      if h : e = f then isTrue (by rw [h]) else isFalse (by intro hh; cases hh; exact h rfl)

/-- A concrete stand-in for `packaging.version.parse`: `"3.6.9"` and `"3.6"`
parse to structured releases, everything else is a legacy version. -/
def parseEx (s : String) : ParsedVersion :=
  if s = "3.6.9" then .structured [3, 6, 9] false
  else if s = "3.6" then .structured [3, 6] false
  else .legacy s

/-- An empty finder state whose search path holds the directories `/a`
and `/b`, in that order. -/
def st0 : FinderState := emptyState (some "/a:/b")

/-- A minimal environment: nothing is absolute, accessible or a directory,
and no directory can be listed. -/
def env0 : Env :=
  { pathsep := ':', sep := "/", isabs := fun _ => false, accessX := fun _ => false,
    accessR := fun _ => false, isdir := fun _ => false,
    listdir := fun _ => Option.none, expandvars := fun s => s }

/-- A populated Windows-side state: one interpreter registered for `"2.7"`,
nothing for `"3.6"`. -/
def stWin : FinderState :=
  { emptyState (some "C:x") with PYTHON_VERSIONS := [("2.7", PyV.str "C:p27")] }

/-- Claim C1 (code bug): with a configured search path, comparing candidates
against an absent prior yields `None` when the new path is the second
argument (`_path_precedence` returns `path1`, i.e. `None`), and only the
first character of the path when the new path is the first argument
(`path_precedence` computes `ordered[0][0]` on a plain string).  Neither case
returns the present path, so first registration never seeds a key. -/
theorem c1_path_precedence_no_seed :
    path_precedence ':' (some "/usr/bin") Option.none
        (some (.str "/usr/bin/python")) = .ok Option.none ∧
    path_precedence ':' (some "/usr/bin") (some (.str "/usr/bin/python"))
        Option.none = .ok (some (.str "/")) := by
  decide

/-- Claim C2 (code bug): registering the structured version `"3.6.9"` does
not create the exact-version entry, does not touch the architecture sub-map,
and instead appends the raw version to the `"3.6"` and `"3"` lists (plus the
reverse path map) — `register_python` routes structured releases to the
loose branch and opaque versions to the precise branch. -/
theorem c2_register_structured_goes_loose :
    (register_python ':' "64bit" parseEx st0 "/usr/bin/python3" "3.6.9"
        false false Option.none).map
      (fun st => (aget st.PYTHON_VERSIONS "3.6.9", aget st.PYTHON_ARCHS "3.6.9"))
      = .ok (Option.none, Option.none) ∧
    (register_python ':' "64bit" parseEx st0 "/usr/bin/python3" "3.6.9"
        false false Option.none).map
      (fun st => (aget st.PYTHON_VERSIONS "3.6", aget st.PYTHON_VERSIONS "3",
                  aget st.PYTHON_PATHS "/usr/bin/python3"))
      = .ok (some (.vlist ["3.6.9"]), some (.vlist ["3.6.9"]), some "3.6.9") := by
  constructor <;> decide

/-- Claim C3 (code bug): registering the same version at `/a/python` and then
`/b/python` (or in the opposite order), with `/a` ranked before `/b` on the
search path, leaves the exact-version slot empty in both orders — for the
structured version `"3.6.9"` the exact key is never written at all, and for
an opaque version the whole call is a no-op because `path_precedence` never
returns the new path. -/
theorem c3_register_order_no_winner :
    ((register_python ':' "64bit" parseEx st0 "/a/python" "3.6.9" false false
        Option.none >>= fun s1 =>
      register_python ':' "64bit" parseEx s1 "/b/python" "3.6.9" false false
        Option.none).map (fun st => aget st.PYTHON_VERSIONS "3.6.9"))
      = .ok Option.none ∧
    ((register_python ':' "64bit" parseEx st0 "/b/python" "3.6.9" false false
        Option.none >>= fun s1 =>
      register_python ':' "64bit" parseEx s1 "/a/python" "3.6.9" false false
        Option.none).map (fun st => aget st.PYTHON_VERSIONS "3.6.9"))
      = .ok Option.none ∧
    (register_python ':' "64bit" parseEx st0 "/a/python" "custom" false false
        Option.none >>= fun s1 =>
      register_python ':' "64bit" parseEx s1 "/b/python" "custom" false false
        Option.none) = .ok st0 ∧
    (register_python ':' "64bit" parseEx st0 "/b/python" "custom" false false
        Option.none >>= fun s1 =>
      register_python ':' "64bit" parseEx s1 "/a/python" "custom" false false
        Option.none) = .ok st0 := by
  refine ⟨by decide, by decide, by decide, by decide⟩

/-- Claim C4, counterexample: on Windows, asking for an absent version with
an explicit architecture raises `KeyError` (`cls.PYTHON_ARCHS[version][arch]`
on an empty inner dict), so `from_version` does raise for an absent-version
case. -/
theorem c4_windows_arch_keyerror :
    errOf (from_version true false parseEx id id id stWin "3.6" (some "64bit"))
      = some PyErr.keyError := by
  decide

/-- Claim C6, counterexample: a bare executable name that does not start with
`"py"` (and is not an absolute accessible path) falls off the end of
`from_line` and yields `None` — no executable-index lookup and no PATH search
happen. -/
theorem c6_from_line_bare_name_none :
    from_line env0 false false parseEx id id id st0 "jython"
      = .ok (PyRet.none, st0) := by
  decide

/-- Claim C9 (code bug): when the starting pid has no entry in the process
table (the ancestor chain is exhausted immediately), `get_shell` executes
`proc.get('parent_pid')` on `None` and raises `AttributeError` instead of
returning a pair of strings. -/
theorem c9_get_shell_orphan_raises :
    get_shell [] (some 1) 42 6 "" "" = .error .attributeError := by
  decide

/-- Claim C7 (code bug): when the environment provides no `PATH`, constructing
the finder raises for every combination of the optional extra path and the
`system` flag — either `TypeError` from joining `None` into the search string
or `AttributeError` from `cls.PATH.split(os.pathsep)` on `None` — instead of
degrading to equal ranks for every path. -/
theorem c7_pathfinder_init_no_path_raises (env : Env) (sysExecDir : String)
    (path0 : Option String) (system : Bool) (W0 : List (String × String)) :
    exceptIsOk (pathfinder_init env Option.none sysExecDir path0 system W0) = false := by
  cases path0 <;> cases system <;>
    simp [pathfinder_init, pyJoin, populate_which_dict, exceptIsOk, Except.map,
      bind, Except.bind, pure, Except.pure]

theorem isEmpty_false_of_ne_nil {α : Type} {l : List α} (h : l ≠ []) :
    l.isEmpty = false := by
  cases l with
  | nil => exact absurd rfl h
  | cons a t => rfl

/-- Claim C10: when the executable index is populated but has no entry for
`cmd`, `which` returns the input name itself unchanged
(`cls.WHICH.get(cmd, cmd)`), so a caller cannot tell "not found" apart from
"found at its own name". -/
theorem c10_which_absent_returns_name (env : Env) (st : FinderState) (cmd : String)
    (h1 : st.WHICH ≠ []) (h2 : aget st.WHICH cmd = Option.none) :
    which env st cmd = .ok (cmd, st) := by
  simp [which, isEmpty_false_of_ne_nil h1, h2, bind, Except.bind, pure, Except.pure]

/-- Witness for C10 at a concrete populated index lacking the key `"b"`. -/
theorem c10_which_absent_returns_name_witness :
    which env0 { st0 with WHICH := [("a", "/a")] } "b"
      = .ok ("b", { st0 with WHICH := [("a", "/a")] }) :=
  c10_which_absent_returns_name env0 { st0 with WHICH := [("a", "/a")] } "b"
    (by decide) (by decide)

/-! ### Invariants of the executable index (claim C8). -/

/-- Every stored value passed the executable-or-readable non-directory check. -/
def WInv (env : Env) (W : List (String × String)) : Prop :=
  ∀ n v, aget W n = some v → execOk env v = true

theorem aset_WInv {env : Env} {W : List (String × String)} (k full : String)
    (hW : WInv env W) (hfull : execOk env full = true) :
    WInv env (aset W k full) := by
  intro n v h
  by_cases hk : n = k
  · subst hk
    rw [aget_aset_self] at h
    cases h
    exact hfull
  · rw [aget_aset_ne _ _ _ _ hk] at h
    exact hW n v h

theorem scanFile_WInv {env : Env} {dir : String} {W : List (String × String)}
    (fn : String) (hW : WInv env W) : WInv env (scanFile env dir W fn) := by
  unfold scanFile
  by_cases hx : execOk env (dir ++ env.sep ++ fn) = true
  · simp only [hx, if_pos]
    have h1 : WInv env (if whichTruthy (aget W fn) then W else aset W fn (dir ++ env.sep ++ fn)) := by
      by_cases ht : whichTruthy (aget W fn) = true
      · simpa [ht] using hW
      · simp only [Bool.not_eq_true] at ht
        simpa [ht] using aset_WInv fn _ hW hx
    by_cases ht2 : whichTruthy (aget (if whichTruthy (aget W fn) then W
        else aset W fn (dir ++ env.sep ++ fn)) (splitextBase fn)) = true
    · simpa [ht2] using h1
    · simp only [Bool.not_eq_true] at ht2
      simpa [ht2] using aset_WInv (splitextBase fn) _ h1 hx
  · simp only [Bool.not_eq_true] at hx
    simpa [hx] using hW

theorem scanDir_WInv {env : Env} {W : List (String × String)} (dir : String)
    (hW : WInv env W) : WInv env (scanDir env W dir) := by
  cases h : env.listdir (env.expandvars dir) with
  | none => simpa [scanDir, h] using hW
  | some files =>
      simp only [scanDir, h]
      exact foldl_inv (WInv env) (scanFile env (env.expandvars dir))
        (fun Wb f hb => scanFile_WInv f hb) files W hW

theorem aset_keeps {W : List (String × String)} {n v : String} (k full : String)
    (hn : aget W n = some v) (hv : v ≠ "") (hguard : whichTruthy (aget W k) = false) :
    aget (aset W k full) n = some v := by
  by_cases hk : n = k
  · subst hk
    rw [hn] at hguard
    simp [whichTruthy, hv] at hguard
  · rw [aget_aset_ne _ _ _ _ hk]
    exact hn

theorem scanFile_keeps {env : Env} {dir : String} {W : List (String × String)}
    {n v : String} (fn : String) (hn : aget W n = some v) (hv : v ≠ "") :
    aget (scanFile env dir W fn) n = some v := by
  unfold scanFile
  by_cases hx : execOk env (dir ++ env.sep ++ fn) = true
  · simp only [hx, if_pos]
    have h1 : aget (if whichTruthy (aget W fn) then W
        else aset W fn (dir ++ env.sep ++ fn)) n = some v := by
      by_cases ht : whichTruthy (aget W fn) = true
      · simpa [ht] using hn
      · simp only [Bool.not_eq_true] at ht
        simpa [ht] using aset_keeps fn _ hn hv ht
    by_cases ht2 : whichTruthy (aget (if whichTruthy (aget W fn) then W
        else aset W fn (dir ++ env.sep ++ fn)) (splitextBase fn)) = true
    · simpa [ht2] using h1
    · simp only [Bool.not_eq_true] at ht2
      simpa [ht2] using aset_keeps (splitextBase fn) _ h1 hv ht2
  · simp only [Bool.not_eq_true] at hx
    simpa [hx] using hn

theorem scanDir_keeps {env : Env} {W : List (String × String)} {n v : String}
    (dir : String) (hn : aget W n = some v) (hv : v ≠ "") :
    aget (scanDir env W dir) n = some v := by
  cases h : env.listdir (env.expandvars dir) with
  | none => simpa [scanDir, h] using hn
  | some files =>
      simp only [scanDir, h]
      exact foldl_inv (fun Wb => aget Wb n = some v) (scanFile env (env.expandvars dir))
        (fun Wb f hb => scanFile_keeps f hb hv) files W hn

/-- Claim C8: after the scan, every value stored in the executable index
passed the executable-or-readable non-directory check (so a lookup never
yields a directory), and an entry present before the scan with a non-empty
value is never replaced — first match wins. -/
theorem c8_executable_index_invariant (env : Env) (P : String)
    (W0 : List (String × String))
    (h0 : ∀ n v, aget W0 n = some v → execOk env v = true) :
    (∀ n v, aget (populatePure env P W0) n = some v → execOk env v = true) ∧
    (∀ n v, aget W0 n = some v → v ≠ "" → aget (populatePure env P W0) n = some v) := by
  constructor
  · exact foldl_inv (WInv env) (scanDir env) (fun Wb d hb => scanDir_WInv d hb)
      (pySplitChar env.pathsep P) W0 h0
  · intro n v hn hv
    exact foldl_inv (fun Wb => aget Wb n = some v) (scanDir env)
      (fun Wb d hb => scanDir_keeps d hb hv) (pySplitChar env.pathsep P) W0 hn

/-- A one-directory filesystem for the C8 witness: `/usr` contains a single
executable file `python`. -/
def envScan : Env :=
  { pathsep := ':', sep := "/", isabs := fun _ => false, accessX := fun _ => true,
    accessR := fun _ => false, isdir := fun _ => false,
    listdir := fun _ => some ["python"], expandvars := fun s => s }

/-- Witness for C8: scanning `/usr` from an empty index stores
`/usr/python` for `"python"`, and the stored value passes the check. -/
theorem c8_executable_index_invariant_witness :
    execOk envScan "/usr/python" = true :=
  (c8_executable_index_invariant envScan "/usr" []
    (by intro n v h; simp [aget] at h)).1 "python" "/usr/python" (by decide)

/-- Claim C6 (amended): only tokens starting with `"py"` are treated as bare
executable names — looked up in `WHICH_PYTHON` and then in the `which` index,
which returns the token itself when the index has no entry; every other
non-absolute token yields `None`. -/
theorem c6_from_line_py_prefix_only (env : Env) (os_nt pyenv_installed : Bool)
    (parse : String → ParsedVersion) (pp ppe pw : FinderState → FinderState)
    (st : FinderState) (t : String)
    (habs : (env.isabs t && env.accessX t) = false) :
    (pyStartsWith t "py" = false →
      from_line env os_nt pyenv_installed parse pp ppe pw st t = .ok (PyRet.none, st)) ∧
    (pyStartsWith t "py" = true → pySplitWs t = [t] →
      aget st.WHICH_PYTHON t = Option.none → st.WHICH ≠ [] →
      aget st.WHICH t = Option.none →
      from_line env os_nt pyenv_installed parse pp ppe pw st t = .ok (PyRet.str t, st)) := by
  constructor
  · intro hpy
    simp [from_line, habs, hpy, pure, Except.pure]
  · intro hpy hsplit hwp hWne hw
    simp [from_line, habs, hpy, hsplit, hwp, which, isEmpty_false_of_ne_nil hWne, hw,
      bind, Except.bind, pure, Except.pure]

/-- Witness for C6: the single-token name `"pypy"` misses `WHICH_PYTHON`,
misses the populated `which` index, and comes back unchanged. -/
theorem c6_from_line_py_prefix_only_witness :
    from_line env0 false false parseEx id id id { st0 with WHICH := [("a", "/a")] } "pypy"
      = .ok (PyRet.str "pypy", { st0 with WHICH := [("a", "/a")] }) :=
  (c6_from_line_py_prefix_only env0 false false parseEx id id id
      { st0 with WHICH := [("a", "/a")] } "pypy" (by decide)).2
    (by decide) (by decide) (by decide) (by decide) (by decide)

/-- Claim C4 (amended): on POSIX, `from_version` for a version absent from
the populated registries returns a falsy not-found value (`None` or an empty
list) and never raises, whatever architecture is requested. -/
theorem c4_from_version_posix_absent_not_found (pyenv_installed : Bool)
    (parse : String → ParsedVersion) (pp ppe pw : FinderState → FinderState)
    (st : FinderState) (version : String) (architecture : Option String)
    (h1 : st.PYTHON_VERSIONS ≠ [])
    (h2 : pyvTruthy (aget st.PYTHON_VERSIONS
        ((aget st.MAX_PYTHON version).getD version)) = false)
    (h3 : pyenv_installed = true → st.PYENV_VERSIONS ≠ [])
    (h4 : pyenv_installed = true →
        aget st.PYENV_VERSIONS (baseVersion (parse version)) = Option.none)
    (h5 : aget st.PYTHON_VERSIONS (baseVersion (parse version)) = Option.none) :
    ∃ r st', from_version false pyenv_installed parse pp ppe pw st version architecture
        = .ok (r, st') ∧ pyRetTruthy r = false := by
  cases hp : pyenv_installed with
  | true =>
      have hne := h3 hp
      have habs := h4 hp
      refine ⟨PyRet.vlist [],
        { st with PYENV_VERSIONS :=
            st.PYENV_VERSIONS ++ [(baseVersion (parse version), [])] }, ?_, rfl⟩
      simp [from_version, h2, isEmpty_false_of_ne_nil h1, hne,
        isEmpty_false_of_ne_nil hne, from_pyenv, bracketDefault, habs,
        wrapAsPath, bind, Except.bind, pure, Except.pure]
  | false =>
      refine ⟨PyRet.none, st, ?_, rfl⟩
      simp [from_version, h2, isEmpty_false_of_ne_nil h1, crawl_path_for_version,
        h5, pyRetOfOpt, wrapAsPath, bind, Except.bind, pure, Except.pure]

/-- A populated POSIX-side state: one interpreter known for `"2.7"`, nothing
for `"3.6"`. -/
def stPos : FinderState :=
  { emptyState (some "/a") with PYTHON_VERSIONS := [("2.7", PyV.str "/usr/bin/python2.7")] }

/-- Witness for C4: asking for the absent `"3.6"` returns not-found, and the
launcher line `py -3.6` delegating to `from_version` likewise returns a falsy
`None` rather than raising. -/
theorem c4_from_version_posix_absent_not_found_witness :
    (∃ r st', from_version false false parseEx id id id stPos "3.6" Option.none
        = .ok (r, st') ∧ pyRetTruthy r = false) ∧
    from_line env0 false false parseEx id id id stPos "py -3.6"
      = .ok (PyRet.none, stPos) :=
  ⟨c4_from_version_posix_absent_not_found false parseEx id id id stPos "3.6"
      Option.none (by decide) (by decide) (by decide) (by decide) (by decide),
    by decide⟩

/-! ### Claim C5: repeated registration of a structured version. -/

/-- View a `PYTHON_VERSIONS` slot as the list the defaultdict would append
to: an absent key stands for the empty list, a stored string has no
`.append`. -/
def optVlist : Option PyV → Option (List String)
  | Option.none => some []
  | some (.vlist l) => some l
  | some (.str _) => Option.none

theorem aget_append_none {κ α : Type} [DecidableEq κ] {m : List (κ × α)} {k : κ}
    (m' : List (κ × α)) (h : aget m k = Option.none) :
    aget (m ++ m') k = aget m' k := by
  induction m with
  | nil => simp [aget]
  | cons p mrest ih =>
      by_cases hp : p.1 = k
      · simp [aget, hp] at h
      · simp only [aget, hp, ite_false, if_neg] at h ⊢
        simp [aget, hp]
        exact ih h

theorem aget_append_some {κ α : Type} [DecidableEq κ] {m : List (κ × α)} {k : κ}
    {v : α} (m' : List (κ × α)) (h : aget m k = some v) :
    aget (m ++ m') k = some v := by
  induction m with
  | nil => simp [aget] at h
  | cons p mrest ih =>
      by_cases hp : p.1 = k
      · simp only [aget, hp, if_pos] at h ⊢
        simpa [aget, hp] using h
      · simp only [aget, hp, ite_false, if_neg] at h ⊢
        simp [aget, hp]
        exact ih h

/-- Behaviour of the defaultdict append on a list-valued (or absent) key. -/
theorem appendToKey_spec (m : List (String × PyV)) (k v : String) (l : List String)
    (h : optVlist (aget m k) = some l) :
    ∃ m', appendToKey m k v = .ok m' ∧
      aget m' k = some (.vlist (l ++ [v])) ∧
      (∀ k', k' ≠ k → aget m' k' = aget m k') := by
  cases hg : aget m k with
  | none =>
      have hl : l = [] := by rw [hg] at h; simpa [optVlist] using h.symm
      subst hl
      refine ⟨m ++ [(k, PyV.vlist [v])], ?_, ?_, ?_⟩
      · simp [appendToKey, hg]
      · rw [aget_append_none _ hg]; simp [aget]
      · intro k' hk'
        cases hg' : aget m k' with
        | none =>
            rw [aget_append_none _ hg']
            have : ¬ (k = k') := fun hh => hk' hh.symm
            simp [aget, this]
        | some w => rw [aget_append_some _ hg']
  | some pv =>
      cases pv with
      | vlist l0 =>
          have hl : l = l0 := by rw [hg] at h; simpa [optVlist] using h.symm
          subst hl
          refine ⟨aset m k (.vlist (l ++ [v])), ?_, ?_, ?_⟩
          · simp [appendToKey, hg]
          · rw [aget_aset_self]
          · intro k' hk'; rw [aget_aset_ne _ _ _ _ hk']
      | str s => rw [hg] at h; simp [optVlist] at h

theorem natDigits_ne_nil (n : Nat) : natDigits (n + 1) n ≠ [] := by
  unfold natDigits
  by_cases h : n < 10 <;> simp [h]

theorem pyStrNat_data_len_pos (n : Nat) : 0 < (pyStrNat n).data.length := by
  have hne := natDigits_ne_nil n
  unfold pyStrNat
  cases h : natDigits (n + 1) n with
  | nil => exact absurd h hne
  | cons c cs => simp [h]

/-- The `"major.minor"` key always differs from the `"major"` key when the
release has at least two components: it contains an extra dot. -/
theorem mmKey_ne_major (r0 r1 : Nat) (rest : List Nat) :
    majorMinorKey (r0 :: r1 :: rest) ≠ pyStrNat r0 := by
  intro h
  have hmm : majorMinorKey (r0 :: r1 :: rest) = pyStrNat r0 ++ "." ++ pyStrNat r1 := rfl
  have hdot : ("." : String).data = ['.'] := rfl
  have hdata : (pyStrNat r0 ++ "." ++ pyStrNat r1).data
      = (pyStrNat r0).data ++ '.' :: (pyStrNat r1).data := by
    simp [String.data_append, hdot]
  have hlen : ((pyStrNat r0).data ++ '.' :: (pyStrNat r1).data).length
      = (pyStrNat r0).data.length := by
    rw [← hdata, ← hmm, h]
  simp only [List.length_append, List.length_cons] at hlen
  have := pyStrNat_data_len_pos r1
  omega

/-- One `register_python` call on a structured release: the raw version is
appended to the `"major.minor"` and `"major"` lists, the architecture map is
untouched, and every other `PYTHON_VERSIONS` key keeps its value. -/
theorem register_structured_step (pathsep : Char) (SYSTEM_ARCH : String)
    (parse : String → ParsedVersion) (st : FinderState) (path v : String)
    (r0 r1 : Nat) (rest : List Nat) (b : Bool) (lmm lmaj : List String)
    (hparse : parse v = .structured (r0 :: r1 :: rest) b)
    (hmm : optVlist (aget st.PYTHON_VERSIONS (majorMinorKey (r0 :: r1 :: rest))) = some lmm)
    (hmaj : optVlist (aget st.PYTHON_VERSIONS (pyStrNat r0)) = some lmaj) :
    ∃ st1, register_python pathsep SYSTEM_ARCH parse st path v false false Option.none
        = .ok st1 ∧
      st1.PYTHON_ARCHS = st.PYTHON_ARCHS ∧
      aget st1.PYTHON_VERSIONS (majorMinorKey (r0 :: r1 :: rest))
        = some (.vlist (lmm ++ [v])) ∧
      aget st1.PYTHON_VERSIONS (pyStrNat r0) = some (.vlist (lmaj ++ [v])) ∧
      (∀ k, k ≠ majorMinorKey (r0 :: r1 :: rest) → k ≠ pyStrNat r0 →
        aget st1.PYTHON_VERSIONS k = aget st.PYTHON_VERSIONS k) := by
  have hne : majorMinorKey (r0 :: r1 :: rest) ≠ pyStrNat r0 := mmKey_ne_major r0 r1 rest
  obtain ⟨m1, ha1, hg1, hf1⟩ :=
    appendToKey_spec st.PYTHON_VERSIONS (majorMinorKey (r0 :: r1 :: rest)) v lmm hmm
  have hmaj1 : optVlist (aget m1 (pyStrNat r0)) = some lmaj := by
    rw [hf1 _ (Ne.symm hne)]; exact hmaj
  obtain ⟨m2, ha2, hg2, hf2⟩ := appendToKey_spec m1 (pyStrNat r0) v lmaj hmaj1
  refine ⟨{ st with PYTHON_PATHS := aset st.PYTHON_PATHS path v, PYTHON_VERSIONS := m2 },
    ?_, rfl, ?_, ?_, ?_⟩
  · simp [register_python, hparse, ha1, ha2, bind, Except.bind, pure, Except.pure]
  · rw [hf2 _ hne]; exact hg1
  · exact hg2
  · intro k hk1 hk2
    rw [hf2 _ hk2, hf1 _ hk1]

/-- Claim C5: registering the same `(path, version)` pair twice for a
structured release leaves the architecture map and every exact-version slot
unchanged on the second call, but appends a second duplicate copy of the raw
version to both the `"major.minor"` and the `"major"` lists. -/
theorem c5_register_twice_duplicates (pathsep : Char) (SYSTEM_ARCH : String)
    (parse : String → ParsedVersion) (st : FinderState) (path v : String)
    (r0 r1 : Nat) (rest : List Nat) (b : Bool) (lmm lmaj : List String)
    (hparse : parse v = .structured (r0 :: r1 :: rest) b)
    (hmm : optVlist (aget st.PYTHON_VERSIONS (majorMinorKey (r0 :: r1 :: rest))) = some lmm)
    (hmaj : optVlist (aget st.PYTHON_VERSIONS (pyStrNat r0)) = some lmaj) :
    ∃ st1 st2,
      register_python pathsep SYSTEM_ARCH parse st path v false false Option.none
        = .ok st1 ∧
      register_python pathsep SYSTEM_ARCH parse st1 path v false false Option.none
        = .ok st2 ∧
      aget st1.PYTHON_VERSIONS (majorMinorKey (r0 :: r1 :: rest))
        = some (.vlist (lmm ++ [v])) ∧
      aget st2.PYTHON_VERSIONS (majorMinorKey (r0 :: r1 :: rest))
        = some (.vlist (lmm ++ [v, v])) ∧
      aget st1.PYTHON_VERSIONS (pyStrNat r0) = some (.vlist (lmaj ++ [v])) ∧
      aget st2.PYTHON_VERSIONS (pyStrNat r0) = some (.vlist (lmaj ++ [v, v])) ∧
      st2.PYTHON_ARCHS = st1.PYTHON_ARCHS ∧
      (∀ k, k ≠ majorMinorKey (r0 :: r1 :: rest) → k ≠ pyStrNat r0 →
        aget st2.PYTHON_VERSIONS k = aget st1.PYTHON_VERSIONS k) := by
  obtain ⟨st1, he1, harch1, hg1, hj1, hf1⟩ :=
    register_structured_step pathsep SYSTEM_ARCH parse st path v r0 r1 rest b lmm lmaj
      hparse hmm hmaj
  have hmm2 : optVlist (aget st1.PYTHON_VERSIONS (majorMinorKey (r0 :: r1 :: rest)))
      = some (lmm ++ [v]) := by rw [hg1]; rfl
  have hmaj2 : optVlist (aget st1.PYTHON_VERSIONS (pyStrNat r0)) = some (lmaj ++ [v]) := by
    rw [hj1]; rfl
  obtain ⟨st2, he2, harch2, hg2, hj2, hf2⟩ :=
    register_structured_step pathsep SYSTEM_ARCH parse st1 path v r0 r1 rest b
      (lmm ++ [v]) (lmaj ++ [v]) hparse hmm2 hmaj2
  refine ⟨st1, st2, he1, he2, hg1, ?_, hj1, ?_, harch2, hf2⟩
  · rw [hg2]; simp
  · rw [hj2]; simp

/-- Witness for C5 at the structured version `"3.6.9"` on an empty registry. -/
theorem c5_register_twice_duplicates_witness :
    ∃ st1 st2,
      register_python ':' "64bit" parseEx st0 "/usr/bin/python3" "3.6.9" false false
        Option.none = .ok st1 ∧
      register_python ':' "64bit" parseEx st1 "/usr/bin/python3" "3.6.9" false false
        Option.none = .ok st2 ∧
      aget st1.PYTHON_VERSIONS (majorMinorKey [3, 6, 9]) = some (.vlist ["3.6.9"]) ∧
      aget st2.PYTHON_VERSIONS (majorMinorKey [3, 6, 9])
        = some (.vlist ["3.6.9", "3.6.9"]) ∧
      aget st1.PYTHON_VERSIONS (pyStrNat 3) = some (.vlist ["3.6.9"]) ∧
      aget st2.PYTHON_VERSIONS (pyStrNat 3) = some (.vlist ["3.6.9", "3.6.9"]) ∧
      st2.PYTHON_ARCHS = st1.PYTHON_ARCHS ∧
      (∀ k, k ≠ majorMinorKey [3, 6, 9] → k ≠ pyStrNat 3 →
        aget st2.PYTHON_VERSIONS k = aget st1.PYTHON_VERSIONS k) :=
  c5_register_twice_duplicates ':' "64bit" parseEx st0 "/usr/bin/python3" "3.6.9"
    3 6 [9] false [] [] (by decide) (by decide) (by decide)
